import Mathlib

/-!
library-go: network configuration observers and apply-configuration builders

Two parts of the repository are embedded here.

* `Network`: the observers `GetClusterCIDRs`, `GetServiceCIDRs` and
  `GetServiceNodePortRange` exercised by `observe_networking_test.go`.  The test
  file fixes the shape of the configuration object (`configv1.Network`) and the
  return types; the observers themselves live in a file that is not part of the
  sources at hand and are modelled from the specification.
* `ApplyCfg`: the generated builders `KubeControllerManagerStatusApplyConfiguration`
  and `ImageContentSourcePolicyApplyConfiguration`, translated setter by setter.
-/

namespace Network

/-! ## Data model (from the literals of `observe_networking_test.go`) -/

/-- One entry of `configv1.NetworkStatus.ClusterNetwork`. -/
structure ClusterNetworkEntry where
  CIDR : String
  deriving DecidableEq, Repr

/-- The part of `configv1.NetworkSpec` read by the observers. -/
structure NetworkSpec where
  ServiceNodePortRange : String := ""
  deriving DecidableEq, Repr

/-- The part of `configv1.NetworkStatus` read by the observers.  A Go slice is a
list; the nil slice is the empty list. -/
structure NetworkStatus where
  ClusterNetwork : List ClusterNetworkEntry := []
  ServiceNetwork : List String := []
  deriving DecidableEq, Repr

/-- The `configv1.Network` object: `ObjectMeta.Name`, `Spec` and `Status`. -/
structure NetworkConfig where
  Name : String
  Spec : NetworkSpec := {}
  Status : NetworkStatus := {}
  deriving DecidableEq, Repr

/-- The lister snapshot: the objects held by the indexer the test builds with
`cache.NewIndexer` and `indexer.Add`. -/
structure NetworkLister where
  items : List NetworkConfig
  deriving Repr

/-- Keyed lookup `lister.Get(name)`: the object stored under `name`, or not found. -/
def NetworkLister.Get (lister : NetworkLister) (name : String) : Option NetworkConfig :=
  lister.items.find? (fun c => c.Name == name)

/-- A warning event handed to the recorder. -/
structure Event where
  reason : String
  message : String
  deriving DecidableEq, Repr

/-- The in-memory event recorder: the events recorded so far, oldest first. -/
structure Recorder where
  events : List Event := []
  deriving DecidableEq, Repr

/-- The recorder call `Warningf(reason, message)`: fire and forget. -/
def Recorder.Warningf (r : Recorder) (reason message : String) : Recorder :=
  { events := r.events ++ [{ reason := reason, message := message }] }

/-- Error taxonomy of the observers. -/
inductive ObserveError where
  | NotConfigured
  | InvalidRange
  deriving DecidableEq, Repr

/-- The Go return pair `(result, error)` of an observer together with the
recorder after the call. -/
structure Observation (α : Type) where
  result : α
  err : Option ObserveError
  recorder : Recorder

/-! ## Node-port range parsing -/

/-- Lowest legal port. -/
def minPort : Nat := 1

/-- Highest legal port. -/
def maxPort : Nat := 65535

/-- Modelled from the spec: the integer parser used on each side of the hyphen
(the parsing code is not among the sources).  A bound is a non-empty run of
decimal digits; anything else (sign, blank, letter, empty text) is rejected. -/
def parseBound (cs : List Char) : Option Nat :=
  if cs ≠ [] ∧ cs.all Char.isDigit = true then
    some (cs.foldl (fun n c => n * 10 + (c.toNat - '0'.toNat)) 0)
  else none

/-- Modelled from the spec: parsing of the node-port-range text as `LOW-HIGH`,
two integers separated by a hyphen (the parsing code is not among the
sources).  Text that is not of this form is rejected. -/
def parsePortRange (s : String) : Option (Nat × Nat) :=
  match s.data.splitOnP (fun c => c == '-') with
  | [lo, hi] =>
    match parseBound lo, parseBound hi with
    | some l, some h => some (l, h)
    | _, _ => none
  | _ => none

/-- Modelled from the spec: the validation policy of the node-port-range
observer (its code is not among the sources): both bounds inside the legal port
window and `low ≤ high`. -/
def validRange (l h : Nat) : Bool :=
  decide (minPort ≤ l) && decide (l ≤ maxPort) &&
  decide (minPort ≤ h) && decide (h ≤ maxPort) && decide (l ≤ h)

/-! ## Observers -/

/-- Modelled from the spec: `GetClusterCIDRs` (section 4.1; the function is
defined in a file that is not among the sources, only its test is).  Fetch the
config named "cluster"; absent, or a status with zero cluster-network entries,
is an error with a nil result and a warning event; otherwise the CIDR string of
every entry, in source order. -/
def GetClusterCIDRs (lister : NetworkLister) (recorder : Recorder) :
    Observation (List String) :=
  match lister.Get "cluster" with
  | none =>
    { result := [], err := some .NotConfigured,
      recorder := recorder.Warningf "GetClusterCIDRsFailed" "network config cluster not found" }
  | some network =>
    if network.Status.ClusterNetwork.length = 0 then
      { result := [], err := some .NotConfigured,
        recorder := recorder.Warningf "GetClusterCIDRsFailed" "status.clusterNetwork is empty" }
    else
      { result := network.Status.ClusterNetwork.map (fun e => e.CIDR), err := none,
        recorder := recorder }

/-- Modelled from the spec: `GetServiceCIDRs` (section 4.2; the function is
defined in a file that is not among the sources, only its test is).  The fetch
step is the one of `GetClusterCIDRs`; when the object exists its
service-network list is returned verbatim. -/
def GetServiceCIDRs (lister : NetworkLister) (recorder : Recorder) :
    Observation (List String) :=
  match lister.Get "cluster" with
  | none =>
    { result := [], err := some .NotConfigured,
      recorder := recorder.Warningf "GetServiceCIDRsFailed" "network config cluster not found" }
  | some network =>
    { result := network.Status.ServiceNetwork, err := none, recorder := recorder }

/-- Modelled from the spec: `GetServiceNodePortRange` (section 4.3; the function
is defined in a file that is not among the sources, only its test is).  Fetch
the config; parse the range text; on a parse, bounds or ordering failure record
a warning event and return an error; otherwise return the original text. -/
def GetServiceNodePortRange (lister : NetworkLister) (recorder : Recorder) :
    Observation String :=
  match lister.Get "cluster" with
  | none =>
    { result := "", err := some .NotConfigured,
      recorder := recorder.Warningf "GetServiceNodePortRangeFailed"
        "network config cluster not found" }
  | some network =>
    let text := network.Spec.ServiceNodePortRange
    match parsePortRange text with
    | none =>
      { result := "", err := some .InvalidRange,
        recorder := recorder.Warningf "GetServiceNodePortRangeFailed"
          ("invalid service node port range: " ++ text) }
    | some (l, h) =>
      if validRange l h then
        { result := text, err := none, recorder := recorder }
      else
        { result := "", err := some .InvalidRange,
          recorder := recorder.Warningf "GetServiceNodePortRangeFailed"
            ("invalid service node port range: " ++ text) }

/-- The lister of the test harness: an indexer holding the one given object. -/
def listerOf (config : NetworkConfig) : NetworkLister := { items := [config] }

/-- The config literal of the node-port-range test cases. -/
def rangeConfig (text : String) : NetworkConfig :=
  { Name := "cluster", Spec := { ServiceNodePortRange := text } }

end Network

namespace ApplyCfg

/-! ## Go control flow -/

/-- How a builder call ends: it returns the receiver, or it panics.  The receiver
is mutated in place, so a panic leaves it in the state reached so far. -/
inductive Outcome (σ : Type) where
  | returned (b : σ)
  | panicked (msg : String) (b : σ)

/-- The call panicked. -/
def Outcome.isPanic {σ : Type} : Outcome σ → Bool
  | .returned _ => false
  | .panicked _ _ => true

/-- The receiver as the call left it. -/
def Outcome.state {σ : Type} : Outcome σ → σ
  | .returned b => b
  | .panicked _ b => b

/-- Chaining `b.F(..).G(..)`: the second call runs on what the first returned; a
panic of the first call propagates. -/
def Outcome.andThen {σ : Type} (o : Outcome σ) (f : σ → Outcome σ) : Outcome σ :=
  match o with
  | .returned b => f b
  | .panicked msg b => .panicked msg b

/-- A Go `map[string]string` value that is not nil: finitely many entries with
distinct keys. -/
abbrev StringMap := AList (fun _ : String => String)

/-- Go `len(m)` of a possibly nil map. -/
def mapLen : Option StringMap → Nat
  | none => 0
  | some m => m.entries.length

/-- The entries a `for k, v := range m` loop visits (none for a nil map). -/
def mapRange : Option StringMap → List (Sigma (fun _ : String => String))
  | none => []
  | some m => m.entries

/-- Go `v, ok := m[k]` on a possibly nil map. -/
def mapLookup (m : Option StringMap) (k : String) : Option String :=
  match m with
  | none => none
  | some m => m.lookup k

/-! ## KubeControllerManagerStatus (operator/v1) -/

/-- The embedded `OperatorStatusApplyConfiguration`, declared outside the sources
at hand: the fields are those the setters write, typed as the setter arguments;
the element types are parameters. -/
structure OperatorStatusApplyConfiguration (Cond Gen : Type) where
  ObservedGeneration : Option Int := none
  Conditions : List Cond := []
  Version : Option String := none
  ReadyReplicas : Option Int := none
  LatestAvailableRevision : Option Int := none
  Generations : List Gen := []

/-- The embedded `StaticPodOperatorStatusApplyConfiguration`, declared outside the
sources at hand: it embeds the operator status and adds the two fields the
setters write. -/
structure StaticPodOperatorStatusApplyConfiguration (Cond Gen Node : Type) where
  OperatorStatusApplyConfiguration : OperatorStatusApplyConfiguration Cond Gen := {}
  LatestAvailableRevisionReason : Option String := none
  NodeStatuses : List Node := []

/-- The builder `KubeControllerManagerStatusApplyConfiguration`.  A setter is
called on a pointer to such a struct; the embedding takes the struct pointed
to and hands the updated struct back. -/
structure KubeControllerManagerStatusApplyConfiguration (Cond Gen Node : Type) where
  StaticPodOperatorStatusApplyConfiguration :
    StaticPodOperatorStatusApplyConfiguration Cond Gen Node := {}

section KCM
variable {Cond Gen Node : Type}

/-- The constructor `KubeControllerManagerStatus()`. -/
def KubeControllerManagerStatus : KubeControllerManagerStatusApplyConfiguration Cond Gen Node :=
  {}

/-- The write `b.OperatorStatusApplyConfiguration.<field> = ...` through the two
embedded structs. -/
def KubeControllerManagerStatusApplyConfiguration.setOperatorStatus
    (b : KubeControllerManagerStatusApplyConfiguration Cond Gen Node)
    (f : OperatorStatusApplyConfiguration Cond Gen → OperatorStatusApplyConfiguration Cond Gen) :
    KubeControllerManagerStatusApplyConfiguration Cond Gen Node :=
  { StaticPodOperatorStatusApplyConfiguration :=
      { b.StaticPodOperatorStatusApplyConfiguration with
        OperatorStatusApplyConfiguration :=
          f b.StaticPodOperatorStatusApplyConfiguration.OperatorStatusApplyConfiguration } }

/-- The promoted field `b.Conditions`. -/
def KubeControllerManagerStatusApplyConfiguration.Conditions
    (b : KubeControllerManagerStatusApplyConfiguration Cond Gen Node) : List Cond :=
  b.StaticPodOperatorStatusApplyConfiguration.OperatorStatusApplyConfiguration.Conditions

/-- The promoted field `b.Generations`. -/
def KubeControllerManagerStatusApplyConfiguration.Generations
    (b : KubeControllerManagerStatusApplyConfiguration Cond Gen Node) : List Gen :=
  b.StaticPodOperatorStatusApplyConfiguration.OperatorStatusApplyConfiguration.Generations

/-- The promoted field `b.NodeStatuses`. -/
def KubeControllerManagerStatusApplyConfiguration.NodeStatuses
    (b : KubeControllerManagerStatusApplyConfiguration Cond Gen Node) : List Node :=
  b.StaticPodOperatorStatusApplyConfiguration.NodeStatuses

/-- The setter `WithObservedGeneration(value int64)`. -/
def KubeControllerManagerStatusApplyConfiguration.WithObservedGeneration
    (b : KubeControllerManagerStatusApplyConfiguration Cond Gen Node) (value : Int) :
    Outcome (KubeControllerManagerStatusApplyConfiguration Cond Gen Node) :=
  .returned (b.setOperatorStatus (fun o => { o with ObservedGeneration := some value }))

/-- The setter `WithConditions(values ...*OperatorConditionApplyConfiguration)`: the loop over
`values`, a nil pointer being `none`. -/
def KubeControllerManagerStatusApplyConfiguration.WithConditions
    (b : KubeControllerManagerStatusApplyConfiguration Cond Gen Node) :
    List (Option Cond) → Outcome (KubeControllerManagerStatusApplyConfiguration Cond Gen Node)
  | [] => .returned b
  | none :: _ => .panicked "nil value passed to WithConditions" b
  | some v :: rest =>
    WithConditions (b.setOperatorStatus (fun o => { o with Conditions := o.Conditions ++ [v] })) rest

/-- The setter `WithVersion(value string)`. -/
def KubeControllerManagerStatusApplyConfiguration.WithVersion
    (b : KubeControllerManagerStatusApplyConfiguration Cond Gen Node) (value : String) :
    Outcome (KubeControllerManagerStatusApplyConfiguration Cond Gen Node) :=
  .returned (b.setOperatorStatus (fun o => { o with Version := some value }))

/-- The setter `WithReadyReplicas(value int32)`. -/
def KubeControllerManagerStatusApplyConfiguration.WithReadyReplicas
    (b : KubeControllerManagerStatusApplyConfiguration Cond Gen Node) (value : Int) :
    Outcome (KubeControllerManagerStatusApplyConfiguration Cond Gen Node) :=
  .returned (b.setOperatorStatus (fun o => { o with ReadyReplicas := some value }))

/-- The setter `WithLatestAvailableRevision(value int32)`. -/
def KubeControllerManagerStatusApplyConfiguration.WithLatestAvailableRevision
    (b : KubeControllerManagerStatusApplyConfiguration Cond Gen Node) (value : Int) :
    Outcome (KubeControllerManagerStatusApplyConfiguration Cond Gen Node) :=
  .returned (b.setOperatorStatus (fun o => { o with LatestAvailableRevision := some value }))

/-- The setter `WithGenerations(values ...*GenerationStatusApplyConfiguration)`. -/
def KubeControllerManagerStatusApplyConfiguration.WithGenerations
    (b : KubeControllerManagerStatusApplyConfiguration Cond Gen Node) :
    List (Option Gen) → Outcome (KubeControllerManagerStatusApplyConfiguration Cond Gen Node)
  | [] => .returned b
  | none :: _ => .panicked "nil value passed to WithGenerations" b
  | some v :: rest =>
    WithGenerations (b.setOperatorStatus (fun o => { o with Generations := o.Generations ++ [v] })) rest

/-- The setter `WithLatestAvailableRevisionReason(value string)`. -/
def KubeControllerManagerStatusApplyConfiguration.WithLatestAvailableRevisionReason
    (b : KubeControllerManagerStatusApplyConfiguration Cond Gen Node) (value : String) :
    Outcome (KubeControllerManagerStatusApplyConfiguration Cond Gen Node) :=
  .returned { StaticPodOperatorStatusApplyConfiguration :=
    { b.StaticPodOperatorStatusApplyConfiguration with
      LatestAvailableRevisionReason := some value } }

/-- The setter `WithNodeStatuses(values ...*NodeStatusApplyConfiguration)`. -/
def KubeControllerManagerStatusApplyConfiguration.WithNodeStatuses
    (b : KubeControllerManagerStatusApplyConfiguration Cond Gen Node) :
    List (Option Node) → Outcome (KubeControllerManagerStatusApplyConfiguration Cond Gen Node)
  | [] => .returned b
  | none :: _ => .panicked "nil value passed to WithNodeStatuses" b
  | some v :: rest =>
    WithNodeStatuses { StaticPodOperatorStatusApplyConfiguration :=
      { b.StaticPodOperatorStatusApplyConfiguration with
        NodeStatuses := b.StaticPodOperatorStatusApplyConfiguration.NodeStatuses ++ [v] } } rest

/-- One call of a setter of the builder, with its arguments: what a link
`.WithX(...)` of a chain is. -/
inductive KubeControllerManagerStatusSetter (Cond Gen Node : Type) where
  | WithObservedGeneration (value : Int)
  | WithConditions (values : List (Option Cond))
  | WithVersion (value : String)
  | WithReadyReplicas (value : Int)
  | WithLatestAvailableRevision (value : Int)
  | WithGenerations (values : List (Option Gen))
  | WithLatestAvailableRevisionReason (value : String)
  | WithNodeStatuses (values : List (Option Node))

/-- The field a setter writes, by the name it has in the source. -/
def KubeControllerManagerStatusSetter.field :
    KubeControllerManagerStatusSetter Cond Gen Node → String
  | .WithObservedGeneration _ => "ObservedGeneration"
  | .WithConditions _ => "Conditions"
  | .WithVersion _ => "Version"
  | .WithReadyReplicas _ => "ReadyReplicas"
  | .WithLatestAvailableRevision _ => "LatestAvailableRevision"
  | .WithGenerations _ => "Generations"
  | .WithLatestAvailableRevisionReason _ => "LatestAvailableRevisionReason"
  | .WithNodeStatuses _ => "NodeStatuses"

/-- The arguments of the call hold no nil pointer. -/
def KubeControllerManagerStatusSetter.nilFree :
    KubeControllerManagerStatusSetter Cond Gen Node → Bool
  | .WithConditions values => values.all Option.isSome
  | .WithGenerations values => values.all Option.isSome
  | .WithNodeStatuses values => values.all Option.isSome
  | _ => true

/-- Running the call on a builder: the method of that name on the arguments. -/
def KubeControllerManagerStatusSetter.call
    (s : KubeControllerManagerStatusSetter Cond Gen Node)
    (b : KubeControllerManagerStatusApplyConfiguration Cond Gen Node) :
    Outcome (KubeControllerManagerStatusApplyConfiguration Cond Gen Node) :=
  match s with
  | .WithObservedGeneration value => b.WithObservedGeneration value
  | .WithConditions values => b.WithConditions values
  | .WithVersion value => b.WithVersion value
  | .WithReadyReplicas value => b.WithReadyReplicas value
  | .WithLatestAvailableRevision value => b.WithLatestAvailableRevision value
  | .WithGenerations values => b.WithGenerations values
  | .WithLatestAvailableRevisionReason value => b.WithLatestAvailableRevisionReason value
  | .WithNodeStatuses values => b.WithNodeStatuses values

end KCM

/-! ## ImageContentSourcePolicy (operator/v1alpha1) -/

/-- The embedded `v1.TypeMetaApplyConfiguration` (declared in client-go): the two
fields written by `WithKind` and `WithAPIVersion`. -/
structure TypeMetaApplyConfiguration where
  Kind : Option String := none
  APIVersion : Option String := none
  deriving DecidableEq

/-- The embedded `v1.ObjectMetaApplyConfiguration` (declared in client-go): the
fields written by the setters, typed as the setter arguments.  A nil map is
`none`; a nil slice is the empty list; time and owner-reference values are
parameters. -/
structure ObjectMetaApplyConfiguration (Time OwnerRef : Type) where
  Name : Option String := none
  GenerateName : Option String := none
  Namespace : Option String := none
  UID : Option String := none
  ResourceVersion : Option String := none
  Generation : Option Int := none
  CreationTimestamp : Option Time := none
  DeletionTimestamp : Option Time := none
  DeletionGracePeriodSeconds : Option Int := none
  Labels : Option StringMap := none
  Annotations : Option StringMap := none
  OwnerReferences : List OwnerRef := []
  Finalizers : List String := []

/-- The builder `ImageContentSourcePolicyApplyConfiguration`: type meta inline,
object meta behind a pointer (`none` is the nil pointer), spec behind a pointer. -/
structure ImageContentSourcePolicyApplyConfiguration (Time OwnerRef SpecCfg : Type) where
  TypeMetaApplyConfiguration : TypeMetaApplyConfiguration := {}
  ObjectMetaApplyConfiguration : Option (ObjectMetaApplyConfiguration Time OwnerRef) := none
  Spec : Option SpecCfg := none

/-- Message of the runtime panic on a write through a nil pointer. -/
def nilDereference : String := "invalid memory address or nil pointer dereference"

section ICSP
variable {Time OwnerRef SpecCfg : Type}

/-- The helper `ensureObjectMetaApplyConfigurationExists()`. -/
def ImageContentSourcePolicyApplyConfiguration.ensureObjectMetaApplyConfigurationExists
    (b : ImageContentSourcePolicyApplyConfiguration Time OwnerRef SpecCfg) :
    ImageContentSourcePolicyApplyConfiguration Time OwnerRef SpecCfg :=
  match b.ObjectMetaApplyConfiguration with
  | none => { b with ObjectMetaApplyConfiguration := some {} }
  | some _ => b

/-- A write `b.<field> = ...` to a field promoted from the embedded object-meta
pointer: it dereferences the pointer. -/
def ImageContentSourcePolicyApplyConfiguration.writeMeta
    (b : ImageContentSourcePolicyApplyConfiguration Time OwnerRef SpecCfg)
    (f : ApplyCfg.ObjectMetaApplyConfiguration Time OwnerRef →
      ApplyCfg.ObjectMetaApplyConfiguration Time OwnerRef) :
    Outcome (ImageContentSourcePolicyApplyConfiguration Time OwnerRef SpecCfg) :=
  match b.ObjectMetaApplyConfiguration with
  | none => .panicked nilDereference b
  | some m => .returned { b with ObjectMetaApplyConfiguration := some (f m) }

/-- Reading a field of the object meta of a builder; without object meta
nothing is set, which is the zero value of the field. -/
def ImageContentSourcePolicyApplyConfiguration.meta
    (b : ImageContentSourcePolicyApplyConfiguration Time OwnerRef SpecCfg) :
    ApplyCfg.ObjectMetaApplyConfiguration Time OwnerRef :=
  match b.ObjectMetaApplyConfiguration with
  | none => {}
  | some m => m

/-- The setter `WithKind(value string)`. -/
def ImageContentSourcePolicyApplyConfiguration.WithKind
    (b : ImageContentSourcePolicyApplyConfiguration Time OwnerRef SpecCfg) (value : String) :
    Outcome (ImageContentSourcePolicyApplyConfiguration Time OwnerRef SpecCfg) :=
  .returned { b with TypeMetaApplyConfiguration :=
    { b.TypeMetaApplyConfiguration with Kind := some value } }

/-- The setter `WithAPIVersion(value string)`. -/
def ImageContentSourcePolicyApplyConfiguration.WithAPIVersion
    (b : ImageContentSourcePolicyApplyConfiguration Time OwnerRef SpecCfg) (value : String) :
    Outcome (ImageContentSourcePolicyApplyConfiguration Time OwnerRef SpecCfg) :=
  .returned { b with TypeMetaApplyConfiguration :=
    { b.TypeMetaApplyConfiguration with APIVersion := some value } }

/-- The setter `WithName(value string)`. -/
def ImageContentSourcePolicyApplyConfiguration.WithName
    (b : ImageContentSourcePolicyApplyConfiguration Time OwnerRef SpecCfg) (value : String) :
    Outcome (ImageContentSourcePolicyApplyConfiguration Time OwnerRef SpecCfg) :=
  let b := b.ensureObjectMetaApplyConfigurationExists
  b.writeMeta (fun m => { m with Name := some value })

/-- The setter `WithGenerateName(value string)`. -/
def ImageContentSourcePolicyApplyConfiguration.WithGenerateName
    (b : ImageContentSourcePolicyApplyConfiguration Time OwnerRef SpecCfg) (value : String) :
    Outcome (ImageContentSourcePolicyApplyConfiguration Time OwnerRef SpecCfg) :=
  let b := b.ensureObjectMetaApplyConfigurationExists
  b.writeMeta (fun m => { m with GenerateName := some value })

/-- The setter `WithNamespace(value string)`. -/
def ImageContentSourcePolicyApplyConfiguration.WithNamespace
    (b : ImageContentSourcePolicyApplyConfiguration Time OwnerRef SpecCfg) (value : String) :
    Outcome (ImageContentSourcePolicyApplyConfiguration Time OwnerRef SpecCfg) :=
  let b := b.ensureObjectMetaApplyConfigurationExists
  b.writeMeta (fun m => { m with Namespace := some value })

/-- The setter `WithUID(value types.UID)`. -/
def ImageContentSourcePolicyApplyConfiguration.WithUID
    (b : ImageContentSourcePolicyApplyConfiguration Time OwnerRef SpecCfg) (value : String) :
    Outcome (ImageContentSourcePolicyApplyConfiguration Time OwnerRef SpecCfg) :=
  let b := b.ensureObjectMetaApplyConfigurationExists
  b.writeMeta (fun m => { m with UID := some value })

/-- The setter `WithResourceVersion(value string)`. -/
def ImageContentSourcePolicyApplyConfiguration.WithResourceVersion
    (b : ImageContentSourcePolicyApplyConfiguration Time OwnerRef SpecCfg) (value : String) :
    Outcome (ImageContentSourcePolicyApplyConfiguration Time OwnerRef SpecCfg) :=
  let b := b.ensureObjectMetaApplyConfigurationExists
  b.writeMeta (fun m => { m with ResourceVersion := some value })

/-- The setter `WithGeneration(value int64)`. -/
def ImageContentSourcePolicyApplyConfiguration.WithGeneration
    (b : ImageContentSourcePolicyApplyConfiguration Time OwnerRef SpecCfg) (value : Int) :
    Outcome (ImageContentSourcePolicyApplyConfiguration Time OwnerRef SpecCfg) :=
  let b := b.ensureObjectMetaApplyConfigurationExists
  b.writeMeta (fun m => { m with Generation := some value })

/-- The setter `WithCreationTimestamp(value metav1.Time)`. -/
def ImageContentSourcePolicyApplyConfiguration.WithCreationTimestamp
    (b : ImageContentSourcePolicyApplyConfiguration Time OwnerRef SpecCfg) (value : Time) :
    Outcome (ImageContentSourcePolicyApplyConfiguration Time OwnerRef SpecCfg) :=
  let b := b.ensureObjectMetaApplyConfigurationExists
  b.writeMeta (fun m => { m with CreationTimestamp := some value })

/-- The setter `WithDeletionTimestamp(value metav1.Time)`. -/
def ImageContentSourcePolicyApplyConfiguration.WithDeletionTimestamp
    (b : ImageContentSourcePolicyApplyConfiguration Time OwnerRef SpecCfg) (value : Time) :
    Outcome (ImageContentSourcePolicyApplyConfiguration Time OwnerRef SpecCfg) :=
  let b := b.ensureObjectMetaApplyConfigurationExists
  b.writeMeta (fun m => { m with DeletionTimestamp := some value })

/-- The setter `WithDeletionGracePeriodSeconds(value int64)`. -/
def ImageContentSourcePolicyApplyConfiguration.WithDeletionGracePeriodSeconds
    (b : ImageContentSourcePolicyApplyConfiguration Time OwnerRef SpecCfg) (value : Int) :
    Outcome (ImageContentSourcePolicyApplyConfiguration Time OwnerRef SpecCfg) :=
  let b := b.ensureObjectMetaApplyConfigurationExists
  b.writeMeta (fun m => { m with DeletionGracePeriodSeconds := some value })

/-- The loop `for k, v := range entries { b.Labels[k] = v }` of `WithLabels`: an
assignment into a nil map panics. -/
def ImageContentSourcePolicyApplyConfiguration.putLabels
    (b : ImageContentSourcePolicyApplyConfiguration Time OwnerRef SpecCfg) :
    List (Sigma (fun _ : String => String)) →
      Outcome (ImageContentSourcePolicyApplyConfiguration Time OwnerRef SpecCfg)
  | [] => .returned b
  | ⟨k, v⟩ :: rest =>
    match b.ObjectMetaApplyConfiguration with
    | none => .panicked nilDereference b
    | some m =>
      match m.Labels with
      | none => .panicked "assignment to entry in nil map" b
      | some lm =>
        putLabels
          { b with ObjectMetaApplyConfiguration := some { m with Labels := some (lm.insert k v) } }
          rest

/-- The setter `WithLabels(entries map[string]string)`; a nil map is `none`. -/
def ImageContentSourcePolicyApplyConfiguration.WithLabels
    (b : ImageContentSourcePolicyApplyConfiguration Time OwnerRef SpecCfg)
    (entries : Option StringMap) :
    Outcome (ImageContentSourcePolicyApplyConfiguration Time OwnerRef SpecCfg) :=
  let b := b.ensureObjectMetaApplyConfigurationExists
  match b.ObjectMetaApplyConfiguration with
  | none => .panicked nilDereference b
  | some m =>
    let b :=
      if m.Labels.isNone && decide (mapLen entries > 0) then
        { b with ObjectMetaApplyConfiguration := some { m with Labels := some ∅ } }
      else b
    b.putLabels (mapRange entries)

/-- The loop `for k, v := range entries { b.Annotations[k] = v }` of `WithAnnotations`: an
assignment into a nil map panics. -/
def ImageContentSourcePolicyApplyConfiguration.putAnnotations
    (b : ImageContentSourcePolicyApplyConfiguration Time OwnerRef SpecCfg) :
    List (Sigma (fun _ : String => String)) →
      Outcome (ImageContentSourcePolicyApplyConfiguration Time OwnerRef SpecCfg)
  | [] => .returned b
  | ⟨k, v⟩ :: rest =>
    match b.ObjectMetaApplyConfiguration with
    | none => .panicked nilDereference b
    | some m =>
      match m.Annotations with
      | none => .panicked "assignment to entry in nil map" b
      | some lm =>
        putAnnotations
          { b with ObjectMetaApplyConfiguration := some { m with Annotations := some (lm.insert k v) } }
          rest

/-- The setter `WithAnnotations(entries map[string]string)`; a nil map is `none`. -/
def ImageContentSourcePolicyApplyConfiguration.WithAnnotations
    (b : ImageContentSourcePolicyApplyConfiguration Time OwnerRef SpecCfg)
    (entries : Option StringMap) :
    Outcome (ImageContentSourcePolicyApplyConfiguration Time OwnerRef SpecCfg) :=
  let b := b.ensureObjectMetaApplyConfigurationExists
  match b.ObjectMetaApplyConfiguration with
  | none => .panicked nilDereference b
  | some m =>
    let b :=
      if m.Annotations.isNone && decide (mapLen entries > 0) then
        { b with ObjectMetaApplyConfiguration := some { m with Annotations := some ∅ } }
      else b
    b.putAnnotations (mapRange entries)

/-- The loop of `WithOwnerReferences` over `values`, a nil pointer being `none`. -/
def ImageContentSourcePolicyApplyConfiguration.appendOwnerReferences
    (b : ImageContentSourcePolicyApplyConfiguration Time OwnerRef SpecCfg) :
    List (Option OwnerRef) →
      Outcome (ImageContentSourcePolicyApplyConfiguration Time OwnerRef SpecCfg)
  | [] => .returned b
  | none :: _ => .panicked "nil value passed to WithOwnerReferences" b
  | some v :: rest =>
    match b.ObjectMetaApplyConfiguration with
    | none => .panicked nilDereference b
    | some m =>
      appendOwnerReferences
        { b with
          ObjectMetaApplyConfiguration := some { m with OwnerReferences := m.OwnerReferences ++ [v] } }
        rest

/-- The setter `WithOwnerReferences(values ...*v1.OwnerReferenceApplyConfiguration)`. -/
def ImageContentSourcePolicyApplyConfiguration.WithOwnerReferences
    (b : ImageContentSourcePolicyApplyConfiguration Time OwnerRef SpecCfg)
    (values : List (Option OwnerRef)) :
    Outcome (ImageContentSourcePolicyApplyConfiguration Time OwnerRef SpecCfg) :=
  b.ensureObjectMetaApplyConfigurationExists.appendOwnerReferences values

/-- The loop of `WithFinalizers` over `values`. -/
def ImageContentSourcePolicyApplyConfiguration.appendFinalizers
    (b : ImageContentSourcePolicyApplyConfiguration Time OwnerRef SpecCfg) :
    List String → Outcome (ImageContentSourcePolicyApplyConfiguration Time OwnerRef SpecCfg)
  | [] => .returned b
  | v :: rest =>
    match b.ObjectMetaApplyConfiguration with
    | none => .panicked nilDereference b
    | some m =>
      appendFinalizers
        { b with ObjectMetaApplyConfiguration := some { m with Finalizers := m.Finalizers ++ [v] } }
        rest

/-- The setter `WithFinalizers(values ...string)`. -/
def ImageContentSourcePolicyApplyConfiguration.WithFinalizers
    (b : ImageContentSourcePolicyApplyConfiguration Time OwnerRef SpecCfg)
    (values : List String) :
    Outcome (ImageContentSourcePolicyApplyConfiguration Time OwnerRef SpecCfg) :=
  b.ensureObjectMetaApplyConfigurationExists.appendFinalizers values

/-- The setter `WithSpec(value *ImageContentSourcePolicySpecApplyConfiguration)`. -/
def ImageContentSourcePolicyApplyConfiguration.WithSpec
    (b : ImageContentSourcePolicyApplyConfiguration Time OwnerRef SpecCfg)
    (value : Option SpecCfg) :
    Outcome (ImageContentSourcePolicyApplyConfiguration Time OwnerRef SpecCfg) :=
  .returned { b with Spec := value }

/-- The constructor `ImageContentSourcePolicy(name string)`. -/
def ImageContentSourcePolicy (name : String) :
    Outcome (ImageContentSourcePolicyApplyConfiguration Time OwnerRef SpecCfg) :=
  let b : ImageContentSourcePolicyApplyConfiguration Time OwnerRef SpecCfg := {}
  ((b.WithName name).andThen (fun b => b.WithKind "ImageContentSourcePolicy")).andThen
    (fun b => b.WithAPIVersion "operator.openshift.io/v1alpha1")

end ICSP

end ApplyCfg

/-! # Theorems -/

namespace Network

/-- A text accepted by `parseBound` holds no hyphen. -/
theorem parseBound_no_hyphen {cs : List Char} {n : Nat} (h : parseBound cs = some n) :
    ∀ c ∈ cs, ¬ ((fun c : Char => c == '-') c = true) := by
  intro c hc hhy
  unfold parseBound at h
  split at h
  · rename_i hd
    have hdig : c.isDigit = true := (List.all_eq_true.mp hd.2) c hc
    have hceq : c = '-' := by simpa using hhy
    rw [hceq] at hdig
    exact absurd hdig (by decide)
  · exact Option.noConfusion h

/-- A text `lo ++ "-" ++ hi` with both sides accepted by `parseBound` is parsed
into the two bounds. -/
theorem parsePortRange_of_form {s : String} {lo hi : List Char} {l h : Nat}
    (hform : s.data = lo ++ '-' :: hi)
    (hlo : parseBound lo = some l) (hhi : parseBound hi = some h) :
    parsePortRange s = some (l, h) := by
  unfold parsePortRange
  rw [hform, List.splitOnP_first _ lo (parseBound_no_hyphen hlo) '-' (by decide) hi,
    List.splitOnP_eq_single _ hi (parseBound_no_hyphen hhi)]
  simp only [hlo, hhi]

/-- The object returned by `Get` carries the name asked for. -/
theorem Get_name {lister : NetworkLister} {name : String} {network : NetworkConfig}
    (h : lister.Get name = some network) : network.Name = name := by
  unfold NetworkLister.Get at h
  have := List.find?_some h
  simpa using this

/-- The character of a decimal digit is a digit character with that value. -/
theorem digitChar_isDigit (k : Nat) (hk : k < 10) :
    (Nat.digitChar k).isDigit = true ∧ (Nat.digitChar k).toNat - '0'.toNat = k := by
  interval_cases k <;> exact ⟨by decide, by decide⟩

/-- The decimal printing loop of the standard library yields a non-empty run of
digit characters whose decimal value, read in front of the accumulator, is the
number printed. -/
theorem toDigitsCore_digits (fuel n : Nat) (acc : List Char) (hfuel : n < fuel)
    (hacc : acc.all Char.isDigit = true) :
    Nat.toDigitsCore 10 fuel n acc ≠ [] ∧
    (Nat.toDigitsCore 10 fuel n acc).all Char.isDigit = true ∧
    (Nat.toDigitsCore 10 fuel n acc).foldl (fun n c => n * 10 + (c.toNat - '0'.toNat)) 0 =
      acc.foldl (fun n c => n * 10 + (c.toNat - '0'.toNat)) n := by
  induction fuel generalizing n acc with
  | zero => omega
  | succ fuel ih =>
    have hd := digitChar_isDigit (n % 10) (Nat.mod_lt n (by decide))
    unfold Nat.toDigitsCore
    simp only
    by_cases h0 : n / 10 = 0
    · rw [if_pos h0]
      have hn : n % 10 = n := Nat.mod_eq_of_lt (by omega)
      refine ⟨by simp, by simp [hd.1, hacc], ?_⟩
      rw [List.foldl_cons, hd.2, hn]
      simp
    · rw [if_neg h0]
      have hlt : n / 10 < fuel := by omega
      have hacc2 : (Nat.digitChar (n % 10) :: acc).all Char.isDigit = true := by
        simp [hd.1, hacc]
      obtain ⟨h1, h2, h3⟩ := ih (n / 10) (Nat.digitChar (n % 10) :: acc) hlt hacc2
      refine ⟨h1, h2, ?_⟩
      rw [h3, List.foldl_cons, hd.2]
      have : n / 10 * 10 + n % 10 = n := by omega
      rw [this]

/-- Every natural number printed in decimal is accepted by `parseBound` with its
own value: the canonical numerals are among the bound texts of the claims on
`GetServiceNodePortRange`. -/
theorem parseBound_repr (n : Nat) : parseBound (toString n).data = some n := by
  have h := toDigitsCore_digits (n + 1) n [] (by omega) (by simp)
  have hs : (toString n).data = Nat.toDigitsCore 10 (n + 1) n [] := rfl
  unfold parseBound
  rw [hs, if_pos ⟨h.1, h.2.1⟩, h.2.2]
  rfl

/-- C1: for a config named "cluster" whose node-port-range text is `LOW-HIGH`,
both sides decimal integers inside the legal port window with `LOW ≤ HIGH`,
`GetServiceNodePortRange` returns that very text and no error (and records no
event). -/
theorem GetServiceNodePortRange_valid (lister : NetworkLister) (recorder : Recorder)
    (network : NetworkConfig) (lo hi : List Char) (l h : Nat)
    (hget : lister.Get "cluster" = some network)
    (hform : network.Spec.ServiceNodePortRange.data = lo ++ '-' :: hi)
    (hlo : parseBound lo = some l) (hhi : parseBound hi = some h)
    (hl : minPort ≤ l ∧ l ≤ maxPort) (hh : minPort ≤ h ∧ h ≤ maxPort) (hle : l ≤ h) :
    network.Name = "cluster" ∧
    (GetServiceNodePortRange lister recorder).result = network.Spec.ServiceNodePortRange ∧
    (GetServiceNodePortRange lister recorder).err = none ∧
    (GetServiceNodePortRange lister recorder).recorder = recorder := by
  refine ⟨Get_name hget, ?_⟩
  unfold GetServiceNodePortRange
  simp only [hget, parsePortRange_of_form hform hlo hhi]
  have hv : validRange l h = true := by
    simp [validRange, hl.1, hl.2, hh.1, hh.2, hle]
  simp [hv]

/-- C1, at the test input: "40000-46000" comes back unchanged, without error. -/
theorem GetServiceNodePortRange_valid_witness :
    (listerOf (rangeConfig "40000-46000")).Get "cluster" = some (rangeConfig "40000-46000") ∧
    (rangeConfig "40000-46000").Name = "cluster" ∧
    (GetServiceNodePortRange (listerOf (rangeConfig "40000-46000")) {}).result = "40000-46000" ∧
    (GetServiceNodePortRange (listerOf (rangeConfig "40000-46000")) {}).err = none ∧
    (GetServiceNodePortRange (listerOf (rangeConfig "40000-46000")) {}).recorder = {} :=
  ⟨by decide,
    GetServiceNodePortRange_valid (listerOf (rangeConfig "40000-46000")) {}
      (rangeConfig "40000-46000") "40000".data "46000".data 40000 46000
      (by decide) (by decide) (by decide) (by decide) (by decide) (by decide) (by decide)⟩

/-- C2: for a config named "cluster" whose node-port-range text is `LOW-HIGH`
with at least one of the two integers outside the legal port range [1, 65535],
`GetServiceNodePortRange` returns an error (and the empty string). -/
theorem GetServiceNodePortRange_out_of_window (lister : NetworkLister) (recorder : Recorder)
    (network : NetworkConfig) (lo hi : List Char) (l h : Nat)
    (hget : lister.Get "cluster" = some network)
    (hform : network.Spec.ServiceNodePortRange.data = lo ++ '-' :: hi)
    (hlo : parseBound lo = some l) (hhi : parseBound hi = some h)
    (hout : l < 1 ∨ 65535 < l ∨ h < 1 ∨ 65535 < h) :
    (GetServiceNodePortRange lister recorder).err ≠ none ∧
    (GetServiceNodePortRange lister recorder).result = "" := by
  unfold GetServiceNodePortRange
  simp only [hget, parsePortRange_of_form hform hlo hhi]
  have hv : validRange l h = false := by
    simp only [validRange, minPort, maxPort, Bool.and_eq_false_iff, decide_eq_false_iff_not]
    omega
  simp [hv]

/-- C2, at the test input: "65530-67840" is rejected. -/
theorem GetServiceNodePortRange_out_of_window_witness :
    (GetServiceNodePortRange (listerOf (rangeConfig "65530-67840")) {}).err ≠ none ∧
    (GetServiceNodePortRange (listerOf (rangeConfig "65530-67840")) {}).result = "" :=
  GetServiceNodePortRange_out_of_window (listerOf (rangeConfig "65530-67840")) {}
    (rangeConfig "65530-67840") "65530".data "67840".data 65530 67840
    (by decide) (by decide) (by decide) (by decide) (by decide)

/-- C3: for a config named "cluster" whose node-port-range text is `LOW-HIGH`
with `LOW > HIGH`, `GetServiceNodePortRange` returns an error (and the empty
string), wherever the two bounds lie. -/
theorem GetServiceNodePortRange_reversed (lister : NetworkLister) (recorder : Recorder)
    (network : NetworkConfig) (lo hi : List Char) (l h : Nat)
    (hget : lister.Get "cluster" = some network)
    (hform : network.Spec.ServiceNodePortRange.data = lo ++ '-' :: hi)
    (hlo : parseBound lo = some l) (hhi : parseBound hi = some h)
    (hgt : h < l) :
    (GetServiceNodePortRange lister recorder).err ≠ none ∧
    (GetServiceNodePortRange lister recorder).result = "" := by
  unfold GetServiceNodePortRange
  simp only [hget, parsePortRange_of_form hform hlo hhi]
  have hv : validRange l h = false := by
    simp only [validRange, minPort, maxPort, Bool.and_eq_false_iff, decide_eq_false_iff_not]
    omega
  simp [hv]

/-- C3, at the test input: "40000-38930", both bounds inside the window, is
rejected. -/
theorem GetServiceNodePortRange_reversed_witness :
    (minPort ≤ 40000 ∧ 40000 ≤ maxPort ∧ minPort ≤ 38930 ∧ 38930 ≤ maxPort) ∧
    (GetServiceNodePortRange (listerOf (rangeConfig "40000-38930")) {}).err ≠ none ∧
    (GetServiceNodePortRange (listerOf (rangeConfig "40000-38930")) {}).result = "" :=
  ⟨by decide,
    GetServiceNodePortRange_reversed (listerOf (rangeConfig "40000-38930")) {}
      (rangeConfig "40000-38930") "40000".data "38930".data 40000 38930
      (by decide) (by decide) (by decide) (by decide) (by decide)⟩

/-- C4: for a config named "cluster" whose status holds `N ≥ 1` cluster-network
entries, `GetClusterCIDRs` returns no error and exactly `N` strings, the i-th
being the CIDR of the i-th entry. -/
theorem GetClusterCIDRs_entries (lister : NetworkLister) (recorder : Recorder)
    (network : NetworkConfig)
    (hget : lister.Get "cluster" = some network)
    (hN : 1 ≤ network.Status.ClusterNetwork.length) :
    (GetClusterCIDRs lister recorder).err = none ∧
    (GetClusterCIDRs lister recorder).result.length = network.Status.ClusterNetwork.length ∧
    (∀ i : Nat, (GetClusterCIDRs lister recorder).result[i]? =
      (network.Status.ClusterNetwork[i]?).map (fun e => e.CIDR)) ∧
    (GetClusterCIDRs lister recorder).result =
      network.Status.ClusterNetwork.map (fun e => e.CIDR) := by
  have hne : ¬ network.Status.ClusterNetwork.length = 0 := by omega
  unfold GetClusterCIDRs
  simp only [hget, if_neg hne]
  simp

/-- C4, at the test input: entries "podCIDR1", "podCIDR2" give that list. -/
theorem GetClusterCIDRs_entries_witness :
    (GetClusterCIDRs (listerOf { Name := "cluster", Status := { ClusterNetwork :=
      [{ CIDR := "podCIDR1" }, { CIDR := "podCIDR2" }] } }) {}).err = none ∧
    (GetClusterCIDRs (listerOf { Name := "cluster", Status := { ClusterNetwork :=
      [{ CIDR := "podCIDR1" }, { CIDR := "podCIDR2" }] } }) {}).result =
      ["podCIDR1", "podCIDR2"] :=
  have h := GetClusterCIDRs_entries (listerOf { Name := "cluster", Status := { ClusterNetwork :=
      [{ CIDR := "podCIDR1" }, { CIDR := "podCIDR2" }] } }) {}
      { Name := "cluster", Status := { ClusterNetwork :=
      [{ CIDR := "podCIDR1" }, { CIDR := "podCIDR2" }] } } (by decide) (by decide)
  ⟨h.1, h.2.2.2⟩

/-- C5: when the config "cluster" is absent from the snapshot, or its status has
zero cluster-network entries, `GetClusterCIDRs` returns an error and a nil
result, whatever the recorder held before. -/
theorem GetClusterCIDRs_missing (lister : NetworkLister) (recorder : Recorder)
    (hmiss : lister.Get "cluster" = none ∨
      ∃ network, lister.Get "cluster" = some network ∧
        network.Status.ClusterNetwork.length = 0) :
    (GetClusterCIDRs lister recorder).err ≠ none ∧
    (GetClusterCIDRs lister recorder).result = [] := by
  unfold GetClusterCIDRs
  rcases hmiss with h | ⟨network, h, h0⟩
  · simp [h]
  · simp only [h, if_pos h0]
    simp

/-- C5, at the test input: config "cluster" with an empty status gives an error
and a nil result. -/
theorem GetClusterCIDRs_missing_witness :
    (GetClusterCIDRs (listerOf { Name := "cluster", Status := {} }) {}).err ≠ none ∧
    (GetClusterCIDRs (listerOf { Name := "cluster", Status := {} }) {}).result = [] :=
  GetClusterCIDRs_missing (listerOf { Name := "cluster", Status := {} }) {}
    (Or.inr ⟨{ Name := "cluster", Status := {} }, by decide, by decide⟩)

/-- C6: for a config named "cluster" present in the snapshot, `GetServiceCIDRs`
returns no error and the status service-network list itself, whatever strings
it holds. -/
theorem GetServiceCIDRs_verbatim (lister : NetworkLister) (recorder : Recorder)
    (network : NetworkConfig)
    (hget : lister.Get "cluster" = some network) :
    (GetServiceCIDRs lister recorder).err = none ∧
    (GetServiceCIDRs lister recorder).result = network.Status.ServiceNetwork := by
  unfold GetServiceCIDRs
  simp [hget]

/-- C6, at the test input: ["serviceCIDRv4", "serviceCIDRv6"] comes back as it
is. -/
theorem GetServiceCIDRs_verbatim_witness :
    (GetServiceCIDRs (listerOf { Name := "cluster", Status := { ServiceNetwork :=
      ["serviceCIDRv4", "serviceCIDRv6"] } }) {}).err = none ∧
    (GetServiceCIDRs (listerOf { Name := "cluster", Status := { ServiceNetwork :=
      ["serviceCIDRv4", "serviceCIDRv6"] } }) {}).result =
      ["serviceCIDRv4", "serviceCIDRv6"] :=
  GetServiceCIDRs_verbatim (listerOf { Name := "cluster", Status := { ServiceNetwork :=
      ["serviceCIDRv4", "serviceCIDRv6"] } }) {}
    { Name := "cluster", Status := { ServiceNetwork := ["serviceCIDRv4", "serviceCIDRv6"] } }
    (by decide)

end Network

namespace ApplyCfg

section KCMLemmas
variable {Cond Gen Node : Type}

/-- A list of non-nil pointers is the list of its pointed-to values. -/
theorem map_some_reduceOption {α : Type} (vs : List (Option α)) (h : ∀ v ∈ vs, v ≠ none) :
    vs.reduceOption.map some = vs := by
  induction vs with
  | nil => rfl
  | cons v rest ih =>
    cases v with
    | none => exact absurd rfl (h none (List.mem_cons_self _ _))
    | some a =>
      rw [List.reduceOption_cons_of_some, List.map_cons,
        ih (fun w hw => h w (List.mem_cons_of_mem _ hw))]

/-- The setter `WithConditions` on non-nil pointers returns the receiver with the values
appended to `Conditions`. -/
theorem WithConditions_map_some
    (b : KubeControllerManagerStatusApplyConfiguration Cond Gen Node) (vals : List Cond) :
    b.WithConditions (vals.map some) =
      .returned (b.setOperatorStatus (fun o => { o with Conditions := o.Conditions ++ vals })) := by
  induction vals generalizing b with
  | nil =>
    simp [KubeControllerManagerStatusApplyConfiguration.WithConditions,
      KubeControllerManagerStatusApplyConfiguration.setOperatorStatus]
  | cons v rest ih =>
    simp [KubeControllerManagerStatusApplyConfiguration.WithConditions, ih,
      KubeControllerManagerStatusApplyConfiguration.setOperatorStatus]

/-- The setter `WithGenerations` on non-nil pointers returns the receiver with the values
appended to `Generations`. -/
theorem WithGenerations_map_some
    (b : KubeControllerManagerStatusApplyConfiguration Cond Gen Node) (vals : List Gen) :
    b.WithGenerations (vals.map some) =
      .returned (b.setOperatorStatus (fun o => { o with Generations := o.Generations ++ vals })) := by
  induction vals generalizing b with
  | nil =>
    simp [KubeControllerManagerStatusApplyConfiguration.WithGenerations,
      KubeControllerManagerStatusApplyConfiguration.setOperatorStatus]
  | cons v rest ih =>
    simp [KubeControllerManagerStatusApplyConfiguration.WithGenerations, ih,
      KubeControllerManagerStatusApplyConfiguration.setOperatorStatus]

/-- The setter `WithNodeStatuses` on non-nil pointers returns the receiver with the values
appended to `NodeStatuses`. -/
theorem WithNodeStatuses_map_some
    (b : KubeControllerManagerStatusApplyConfiguration Cond Gen Node) (vals : List Node) :
    b.WithNodeStatuses (vals.map some) =
      .returned { StaticPodOperatorStatusApplyConfiguration :=
        { b.StaticPodOperatorStatusApplyConfiguration with
          NodeStatuses := b.StaticPodOperatorStatusApplyConfiguration.NodeStatuses ++ vals } } := by
  induction vals generalizing b with
  | nil => simp [KubeControllerManagerStatusApplyConfiguration.WithNodeStatuses]
  | cons v rest ih => simp [KubeControllerManagerStatusApplyConfiguration.WithNodeStatuses, ih]

/-- Two `WithConditions` calls in a row are one call on the concatenated
arguments (nil arguments included: the panic is the same). -/
theorem WithConditions_append
    (b : KubeControllerManagerStatusApplyConfiguration Cond Gen Node)
    (xs ys : List (Option Cond)) :
    (b.WithConditions xs).andThen (fun b1 => b1.WithConditions ys) =
      b.WithConditions (xs ++ ys) := by
  induction xs generalizing b with
  | nil => rfl
  | cons v rest ih =>
    cases v with
    | none => rfl
    | some a =>
      simp only [KubeControllerManagerStatusApplyConfiguration.WithConditions, List.cons_append]
      exact ih _

/-- Two `WithGenerations` calls in a row are one call on the concatenated
arguments. -/
theorem WithGenerations_append
    (b : KubeControllerManagerStatusApplyConfiguration Cond Gen Node)
    (xs ys : List (Option Gen)) :
    (b.WithGenerations xs).andThen (fun b1 => b1.WithGenerations ys) =
      b.WithGenerations (xs ++ ys) := by
  induction xs generalizing b with
  | nil => rfl
  | cons v rest ih =>
    cases v with
    | none => rfl
    | some a =>
      simp only [KubeControllerManagerStatusApplyConfiguration.WithGenerations, List.cons_append]
      exact ih _

/-- Two `WithNodeStatuses` calls in a row are one call on the concatenated
arguments. -/
theorem WithNodeStatuses_append
    (b : KubeControllerManagerStatusApplyConfiguration Cond Gen Node)
    (xs ys : List (Option Node)) :
    (b.WithNodeStatuses xs).andThen (fun b1 => b1.WithNodeStatuses ys) =
      b.WithNodeStatuses (xs ++ ys) := by
  induction xs generalizing b with
  | nil => rfl
  | cons v rest ih =>
    cases v with
    | none => rfl
    | some a =>
      simp only [KubeControllerManagerStatusApplyConfiguration.WithNodeStatuses, List.cons_append]
      exact ih _

/-- The setter `WithConditions` panics exactly when an argument is nil. -/
theorem WithConditions_isPanic
    (b : KubeControllerManagerStatusApplyConfiguration Cond Gen Node)
    (vs : List (Option Cond)) :
    (b.WithConditions vs).isPanic = true ↔ none ∈ vs := by
  induction vs generalizing b with
  | nil => simp [KubeControllerManagerStatusApplyConfiguration.WithConditions, Outcome.isPanic]
  | cons v rest ih =>
    cases v with
    | none => simp [KubeControllerManagerStatusApplyConfiguration.WithConditions, Outcome.isPanic]
    | some a => simp [KubeControllerManagerStatusApplyConfiguration.WithConditions, ih]

/-- The setter `WithGenerations` panics exactly when an argument is nil. -/
theorem WithGenerations_isPanic
    (b : KubeControllerManagerStatusApplyConfiguration Cond Gen Node)
    (vs : List (Option Gen)) :
    (b.WithGenerations vs).isPanic = true ↔ none ∈ vs := by
  induction vs generalizing b with
  | nil => simp [KubeControllerManagerStatusApplyConfiguration.WithGenerations, Outcome.isPanic]
  | cons v rest ih =>
    cases v with
    | none => simp [KubeControllerManagerStatusApplyConfiguration.WithGenerations, Outcome.isPanic]
    | some a => simp [KubeControllerManagerStatusApplyConfiguration.WithGenerations, ih]

/-- The setter `WithNodeStatuses` panics exactly when an argument is nil. -/
theorem WithNodeStatuses_isPanic
    (b : KubeControllerManagerStatusApplyConfiguration Cond Gen Node)
    (vs : List (Option Node)) :
    (b.WithNodeStatuses vs).isPanic = true ↔ none ∈ vs := by
  induction vs generalizing b with
  | nil => simp [KubeControllerManagerStatusApplyConfiguration.WithNodeStatuses, Outcome.isPanic]
  | cons v rest ih =>
    cases v with
    | none => simp [KubeControllerManagerStatusApplyConfiguration.WithNodeStatuses, Outcome.isPanic]
    | some a => simp [KubeControllerManagerStatusApplyConfiguration.WithNodeStatuses, ih]

end KCMLemmas

section ICSPLemmas
variable {Time OwnerRef SpecCfg : Type}

/-- After `ensureObjectMetaApplyConfigurationExists` the object-meta pointer is
not nil and points to the fields read before. -/
theorem ensure_meta (b : ImageContentSourcePolicyApplyConfiguration Time OwnerRef SpecCfg) :
    b.ensureObjectMetaApplyConfigurationExists =
      { b with ObjectMetaApplyConfiguration := some b.meta } := by
  unfold ImageContentSourcePolicyApplyConfiguration.ensureObjectMetaApplyConfigurationExists
    ImageContentSourcePolicyApplyConfiguration.meta
  cases h : b.ObjectMetaApplyConfiguration with
  | none => rfl
  | some m =>
    cases b
    simp only at h
    simp [h]

/-- With object meta in place, the loop of `WithOwnerReferences` panics exactly
when an argument is nil. -/
theorem appendOwnerReferences_isPanic
    (b : ImageContentSourcePolicyApplyConfiguration Time OwnerRef SpecCfg)
    (m : ObjectMetaApplyConfiguration Time OwnerRef)
    (hm : b.ObjectMetaApplyConfiguration = some m) (vs : List (Option OwnerRef)) :
    (b.appendOwnerReferences vs).isPanic = true ↔ none ∈ vs := by
  induction vs generalizing b m with
  | nil =>
    simp [ImageContentSourcePolicyApplyConfiguration.appendOwnerReferences, Outcome.isPanic]
  | cons v rest ih =>
    cases v with
    | none =>
      simp [ImageContentSourcePolicyApplyConfiguration.appendOwnerReferences, Outcome.isPanic]
    | some a =>
      simp only [ImageContentSourcePolicyApplyConfiguration.appendOwnerReferences, hm]
      rw [ih _ _ rfl]
      simp

end ICSPLemmas

section MapLemmas
variable {Time OwnerRef SpecCfg : Type}

/-- Lookup after the assignments of a range loop over entries with distinct
keys: the entry of the loop when there is one, the previous value otherwise. -/
theorem lookup_foldl_insert (es : List (Sigma (fun _ : String => String)))
    (hnd : es.NodupKeys) (lm : StringMap) (k : String) :
    (es.foldl (fun acc e => acc.insert e.1 e.2) lm).lookup k =
      match es.dlookup k with
      | some v => some v
      | none => lm.lookup k := by
  induction es generalizing lm with
  | nil => simp
  | cons e rest ih =>
    obtain ⟨k', v'⟩ := e
    rw [List.nodupKeys_cons] at hnd
    rw [List.foldl_cons, ih hnd.2]
    by_cases hk : k = k'
    · subst hk
      have hnone : rest.dlookup k = none := List.dlookup_eq_none.mpr hnd.1
      simp [hnone, AList.lookup_insert]
    · rw [List.dlookup_cons_ne rest ⟨k', v'⟩ hk, AList.lookup_insert_ne hk]

/-- The entries visited by a range loop have distinct keys. -/
theorem mapRange_nodupKeys (entries : Option StringMap) : (mapRange entries).NodupKeys := by
  cases entries with
  | none => exact List.nodupKeys_nil
  | some m => exact m.nodupKeys

/-- Looking a key up in a map is looking it up among the entries a range loop
visits. -/
theorem mapLookup_eq_dlookup (entries : Option StringMap) (k : String) :
    mapLookup entries k = (mapRange entries).dlookup k := by
  cases entries with
  | none => rfl
  | some m => rfl

/-- The loop of `WithLabels` on a builder whose `Labels` map is not nil. -/
theorem putLabels_eq (b : ImageContentSourcePolicyApplyConfiguration Time OwnerRef SpecCfg)
    (m : ObjectMetaApplyConfiguration Time OwnerRef) (lm : StringMap)
    (hm : b.ObjectMetaApplyConfiguration = some m) (hl : m.Labels = some lm)
    (es : List (Sigma (fun _ : String => String))) :
    b.putLabels es = .returned { b with
      ObjectMetaApplyConfiguration :=
        some { m with Labels := some (es.foldl (fun acc e => acc.insert e.1 e.2) lm) } } := by
  induction es generalizing b m lm with
  | nil =>
    cases b; cases m
    simp only at hm hl
    simp [ImageContentSourcePolicyApplyConfiguration.putLabels, hm, hl]
  | cons e rest ih =>
    obtain ⟨k, v⟩ := e
    simp only [ImageContentSourcePolicyApplyConfiguration.putLabels, hm, hl]
    rw [ih _ _ _ rfl rfl]
    rfl

/-- The loop of `WithAnnotations` on a builder whose `Annotations` map is not
nil. -/
theorem putAnnotations_eq (b : ImageContentSourcePolicyApplyConfiguration Time OwnerRef SpecCfg)
    (m : ObjectMetaApplyConfiguration Time OwnerRef) (lm : StringMap)
    (hm : b.ObjectMetaApplyConfiguration = some m) (hl : m.Annotations = some lm)
    (es : List (Sigma (fun _ : String => String))) :
    b.putAnnotations es = .returned { b with
      ObjectMetaApplyConfiguration :=
        some { m with Annotations := some (es.foldl (fun acc e => acc.insert e.1 e.2) lm) } } := by
  induction es generalizing b m lm with
  | nil =>
    cases b; cases m
    simp only at hm hl
    simp [ImageContentSourcePolicyApplyConfiguration.putAnnotations, hm, hl]
  | cons e rest ih =>
    obtain ⟨k, v⟩ := e
    simp only [ImageContentSourcePolicyApplyConfiguration.putAnnotations, hm, hl]
    rw [ih _ _ _ rfl rfl]
    rfl

/-- A map of length zero visits no entry. -/
theorem mapRange_of_len_zero (entries : Option StringMap) (h : ¬ mapLen entries > 0) :
    mapRange entries = [] := by
  cases entries with
  | none => rfl
  | some m =>
    simp only [mapLen, gt_iff_lt, not_lt, Nat.le_zero] at h
    exact List.length_eq_zero.mp h

/-- The setter `WithLabels` returns, and a lookup in `Labels` afterwards gives the entry
passed in when there is one and the previous value otherwise. -/
theorem WithLabels_lookup (b : ImageContentSourcePolicyApplyConfiguration Time OwnerRef SpecCfg)
    (entries : Option StringMap) :
    (b.WithLabels entries).isPanic = false ∧
    ∀ k : String, mapLookup (b.WithLabels entries).state.meta.Labels k =
      match mapLookup entries k with
      | some v => some v
      | none => mapLookup b.meta.Labels k := by
  unfold ImageContentSourcePolicyApplyConfiguration.WithLabels
  rw [ensure_meta]
  simp only
  cases hl : b.meta.Labels with
  | some lm =>
    simp only [Option.isNone_some, Bool.false_and, Bool.false_eq_true, if_false]
    rw [putLabels_eq _ b.meta lm rfl hl]
    refine ⟨rfl, fun k => ?_⟩
    show AList.lookup k ((mapRange entries).foldl (fun acc e => acc.insert e.1 e.2) lm) = _
    rw [lookup_foldl_insert _ (mapRange_nodupKeys entries), mapLookup_eq_dlookup]
    rfl
  | none =>
    by_cases hlen : mapLen entries > 0
    · simp only [Option.isNone_none, Bool.true_and, decide_eq_true_eq, hlen, if_true]
      rw [putLabels_eq _ { b.meta with Labels := some ∅ } ∅ rfl rfl]
      refine ⟨rfl, fun k => ?_⟩
      show AList.lookup k ((mapRange entries).foldl (fun acc e => acc.insert e.1 e.2)
        (∅ : StringMap)) = _
      rw [lookup_foldl_insert _ (mapRange_nodupKeys entries), mapLookup_eq_dlookup]
      rfl
    · simp only [Option.isNone_none, Bool.true_and, decide_eq_true_eq, hlen, if_false]
      rw [mapRange_of_len_zero entries hlen]
      refine ⟨rfl, fun k => ?_⟩
      show mapLookup b.meta.Labels k = _
      rw [hl, mapLookup_eq_dlookup entries, mapRange_of_len_zero entries hlen]
      rfl

/-- The setter `WithAnnotations` returns, and a lookup in `Annotations` afterwards gives the entry
passed in when there is one and the previous value otherwise. -/
theorem WithAnnotations_lookup (b : ImageContentSourcePolicyApplyConfiguration Time OwnerRef SpecCfg)
    (entries : Option StringMap) :
    (b.WithAnnotations entries).isPanic = false ∧
    ∀ k : String, mapLookup (b.WithAnnotations entries).state.meta.Annotations k =
      match mapLookup entries k with
      | some v => some v
      | none => mapLookup b.meta.Annotations k := by
  unfold ImageContentSourcePolicyApplyConfiguration.WithAnnotations
  rw [ensure_meta]
  simp only
  cases hl : b.meta.Annotations with
  | some lm =>
    simp only [Option.isNone_some, Bool.false_and, Bool.false_eq_true, if_false]
    rw [putAnnotations_eq _ b.meta lm rfl hl]
    refine ⟨rfl, fun k => ?_⟩
    show AList.lookup k ((mapRange entries).foldl (fun acc e => acc.insert e.1 e.2) lm) = _
    rw [lookup_foldl_insert _ (mapRange_nodupKeys entries), mapLookup_eq_dlookup]
    rfl
  | none =>
    by_cases hlen : mapLen entries > 0
    · simp only [Option.isNone_none, Bool.true_and, decide_eq_true_eq, hlen, if_true]
      rw [putAnnotations_eq _ { b.meta with Annotations := some ∅ } ∅ rfl rfl]
      refine ⟨rfl, fun k => ?_⟩
      show AList.lookup k ((mapRange entries).foldl (fun acc e => acc.insert e.1 e.2)
        (∅ : StringMap)) = _
      rw [lookup_foldl_insert _ (mapRange_nodupKeys entries), mapLookup_eq_dlookup]
      rfl
    · simp only [Option.isNone_none, Bool.true_and, decide_eq_true_eq, hlen, if_false]
      rw [mapRange_of_len_zero entries hlen]
      refine ⟨rfl, fun k => ?_⟩
      show mapLookup b.meta.Annotations k = _
      rw [hl, mapLookup_eq_dlookup entries, mapRange_of_len_zero entries hlen]
      rfl

end MapLemmas

section BuilderClaims
variable {Cond Gen Node Time OwnerRef SpecCfg : Type}

/-- C7: for a `KubeControllerManagerStatus` builder and non-nil arguments,
`WithConditions` returns the receiver with `Conditions` equal to its previous
contents followed by the pointed-to values in argument order, every other field
kept; two calls in a row give what one call on the concatenated arguments gives.
The same for `WithGenerations` and `WithNodeStatuses`. -/
theorem With_slices_append
    (b : KubeControllerManagerStatusApplyConfiguration Cond Gen Node)
    (xs ys : List (Option Cond)) (gxs gys : List (Option Gen)) (nxs nys : List (Option Node))
    (hxs : ∀ v ∈ xs, v ≠ none) (hys : ∀ v ∈ ys, v ≠ none)
    (hgxs : ∀ v ∈ gxs, v ≠ none) (hgys : ∀ v ∈ gys, v ≠ none)
    (hnxs : ∀ v ∈ nxs, v ≠ none) (hnys : ∀ v ∈ nys, v ≠ none) :
    (b.WithConditions xs =
        .returned (b.setOperatorStatus
          (fun o => { o with Conditions := o.Conditions ++ xs.reduceOption })) ∧
      (b.WithConditions xs).state.Conditions = b.Conditions ++ xs.reduceOption ∧
      (b.WithConditions xs).andThen (fun b1 => b1.WithConditions ys) =
        b.WithConditions (xs ++ ys) ∧
      b.WithConditions (xs ++ ys) =
        .returned (b.setOperatorStatus
          (fun o => { o with Conditions := o.Conditions ++ (xs.reduceOption ++ ys.reduceOption) }))) ∧
    (b.WithGenerations gxs =
        .returned (b.setOperatorStatus
          (fun o => { o with Generations := o.Generations ++ gxs.reduceOption })) ∧
      (b.WithGenerations gxs).state.Generations = b.Generations ++ gxs.reduceOption ∧
      (b.WithGenerations gxs).andThen (fun b1 => b1.WithGenerations gys) =
        b.WithGenerations (gxs ++ gys) ∧
      b.WithGenerations (gxs ++ gys) =
        .returned (b.setOperatorStatus
          (fun o => { o with
            Generations := o.Generations ++ (gxs.reduceOption ++ gys.reduceOption) }))) ∧
    (b.WithNodeStatuses nxs =
        .returned { StaticPodOperatorStatusApplyConfiguration :=
          { b.StaticPodOperatorStatusApplyConfiguration with
            NodeStatuses := b.NodeStatuses ++ nxs.reduceOption } } ∧
      (b.WithNodeStatuses nxs).state.NodeStatuses = b.NodeStatuses ++ nxs.reduceOption ∧
      (b.WithNodeStatuses nxs).andThen (fun b1 => b1.WithNodeStatuses nys) =
        b.WithNodeStatuses (nxs ++ nys) ∧
      b.WithNodeStatuses (nxs ++ nys) =
        .returned { StaticPodOperatorStatusApplyConfiguration :=
          { b.StaticPodOperatorStatusApplyConfiguration with
            NodeStatuses := b.NodeStatuses ++ (nxs.reduceOption ++ nys.reduceOption) } }) := by
  have e1 := WithConditions_map_some b xs.reduceOption
  have e2 := WithConditions_map_some b (xs.reduceOption ++ ys.reduceOption)
  have e3 := WithGenerations_map_some b gxs.reduceOption
  have e4 := WithGenerations_map_some b (gxs.reduceOption ++ gys.reduceOption)
  have e5 := WithNodeStatuses_map_some b nxs.reduceOption
  have e6 := WithNodeStatuses_map_some b (nxs.reduceOption ++ nys.reduceOption)
  rw [List.map_append] at e2 e4 e6
  rw [map_some_reduceOption xs hxs] at e1 e2
  rw [map_some_reduceOption ys hys] at e2
  rw [map_some_reduceOption gxs hgxs] at e3 e4
  rw [map_some_reduceOption gys hgys] at e4
  rw [map_some_reduceOption nxs hnxs] at e5 e6
  rw [map_some_reduceOption nys hnys] at e6
  refine ⟨⟨e1, ?_, WithConditions_append b xs ys, e2⟩,
    ⟨e3, ?_, WithGenerations_append b gxs gys, e4⟩,
    ⟨e5, ?_, WithNodeStatuses_append b nxs nys, e6⟩⟩
  · rw [e1]; rfl
  · rw [e3]; rfl
  · rw [e5]; rfl

/-- C7, on a builder holding condition 1: `WithConditions(2, 3)` then
`WithConditions(4)` leaves `Conditions` at 1, 2, 3, 4. -/
theorem With_slices_append_witness :
    ((({ StaticPodOperatorStatusApplyConfiguration :=
          { OperatorStatusApplyConfiguration := { Conditions := [1] } } } :
        KubeControllerManagerStatusApplyConfiguration Nat Nat Nat).WithConditions
          [some 2, some 3]).andThen (fun b1 => b1.WithConditions [some 4])).state.Conditions =
      [1, 2, 3, 4] :=
  have h := With_slices_append
    ({ StaticPodOperatorStatusApplyConfiguration :=
          { OperatorStatusApplyConfiguration := { Conditions := [1] } } } :
        KubeControllerManagerStatusApplyConfiguration Nat Nat Nat)
    [some 2, some 3] [some 4] [some 5] [] [] [some 6]
    (by decide) (by decide) (by decide) (by decide) (by decide) (by decide)
  by rw [h.1.2.2.1, h.1.2.2.2]; rfl

/-- C8: the variadic pointer setters `WithConditions`, `WithGenerations`,
`WithNodeStatuses` and `WithOwnerReferences` panic exactly when some argument is
nil; with no argument they return without panic and the target slice is what it
was. -/
theorem variadic_panic_iff_nil
    (b : KubeControllerManagerStatusApplyConfiguration Cond Gen Node)
    (p : ImageContentSourcePolicyApplyConfiguration Time OwnerRef SpecCfg)
    (cs : List (Option Cond)) (gs : List (Option Gen)) (ns : List (Option Node))
    (os : List (Option OwnerRef)) :
    (((b.WithConditions cs).isPanic = true ↔ none ∈ cs) ∧
      ((b.WithGenerations gs).isPanic = true ↔ none ∈ gs) ∧
      ((b.WithNodeStatuses ns).isPanic = true ↔ none ∈ ns) ∧
      ((p.WithOwnerReferences os).isPanic = true ↔ none ∈ os)) ∧
    (b.WithConditions [] = .returned b ∧
      b.WithGenerations [] = .returned b ∧
      b.WithNodeStatuses [] = .returned b ∧
      (p.WithOwnerReferences []).isPanic = false ∧
      (p.WithOwnerReferences []).state.meta.OwnerReferences = p.meta.OwnerReferences ∧
      (p.WithOwnerReferences []).state.TypeMetaApplyConfiguration = p.TypeMetaApplyConfiguration ∧
      (p.WithOwnerReferences []).state.Spec = p.Spec) := by
  refine ⟨⟨WithConditions_isPanic b cs, WithGenerations_isPanic b gs,
    WithNodeStatuses_isPanic b ns, ?_⟩, rfl, rfl, rfl, rfl, ?_, ?_, ?_⟩
  · unfold ImageContentSourcePolicyApplyConfiguration.WithOwnerReferences
    rw [ensure_meta]
    exact appendOwnerReferences_isPanic _ _ rfl os
  all_goals
    unfold ImageContentSourcePolicyApplyConfiguration.WithOwnerReferences
    rw [ensure_meta]
    rfl

/-- C9: for every `ImageContentSourcePolicy` builder, with or without object meta,
and every map of entries, nil and empty included, `WithLabels` does not panic
and afterwards the lookup of a key in `Labels` is the entry passed in when the
key is among the entries and the previous lookup otherwise.  The same for
`WithAnnotations` on `Annotations`. -/
theorem WithLabels_WithAnnotations_merge
    (b : ImageContentSourcePolicyApplyConfiguration Time OwnerRef SpecCfg)
    (entries : Option StringMap) :
    ((b.WithLabels entries).isPanic = false ∧
      ∀ k : String, mapLookup (b.WithLabels entries).state.meta.Labels k =
        match mapLookup entries k with
        | some v => some v
        | none => mapLookup b.meta.Labels k) ∧
    ((b.WithAnnotations entries).isPanic = false ∧
      ∀ k : String, mapLookup (b.WithAnnotations entries).state.meta.Annotations k =
        match mapLookup entries k with
        | some v => some v
        | none => mapLookup b.meta.Annotations k) :=
  ⟨WithLabels_lookup b entries, WithAnnotations_lookup b entries⟩

/-- C10: `WithName` returns the receiver with `Name` set and nothing else
changed - `Kind`, `APIVersion`, `Spec` and every other object-meta field read
as before, whether the object meta existed or was created by the call - and
after `WithName(v1).WithName(v2)` the name is `v2`. -/
theorem WithName_last_wins_and_frame
    (b : ImageContentSourcePolicyApplyConfiguration Time OwnerRef SpecCfg) (v1 v2 : String) :
    ((b.WithName v1).andThen (fun b1 => b1.WithName v2) =
        .returned { b with ObjectMetaApplyConfiguration := some { b.meta with Name := some v2 } } ∧
      ((b.WithName v1).andThen (fun b1 => b1.WithName v2)).state.meta.Name = some v2) ∧
    (b.WithName v1 =
        .returned { b with ObjectMetaApplyConfiguration := some { b.meta with Name := some v1 } } ∧
      (b.WithName v1).state.meta.Name = some v1 ∧
      (b.WithName v1).state.TypeMetaApplyConfiguration.Kind = b.TypeMetaApplyConfiguration.Kind ∧
      (b.WithName v1).state.TypeMetaApplyConfiguration.APIVersion =
        b.TypeMetaApplyConfiguration.APIVersion ∧
      (b.WithName v1).state.Spec = b.Spec ∧
      (b.WithName v1).state.meta.GenerateName = b.meta.GenerateName ∧
      (b.WithName v1).state.meta.Namespace = b.meta.Namespace ∧
      (b.WithName v1).state.meta.UID = b.meta.UID ∧
      (b.WithName v1).state.meta.ResourceVersion = b.meta.ResourceVersion ∧
      (b.WithName v1).state.meta.Generation = b.meta.Generation ∧
      (b.WithName v1).state.meta.CreationTimestamp = b.meta.CreationTimestamp ∧
      (b.WithName v1).state.meta.DeletionTimestamp = b.meta.DeletionTimestamp ∧
      (b.WithName v1).state.meta.DeletionGracePeriodSeconds =
        b.meta.DeletionGracePeriodSeconds ∧
      (b.WithName v1).state.meta.Labels = b.meta.Labels ∧
      (b.WithName v1).state.meta.Annotations = b.meta.Annotations ∧
      (b.WithName v1).state.meta.OwnerReferences = b.meta.OwnerReferences ∧
      (b.WithName v1).state.meta.Finalizers = b.meta.Finalizers) := by
  have h1 : ∀ v : String, b.WithName v =
      .returned { b with ObjectMetaApplyConfiguration := some { b.meta with Name := some v } } := by
    intro v
    unfold ImageContentSourcePolicyApplyConfiguration.WithName
    rw [ensure_meta]
    rfl
  refine ⟨⟨?_, ?_⟩, h1 v1, ?_⟩
  · rw [h1 v1]; rfl
  · rw [h1 v1]; rfl
  · rw [h1 v1]
    exact ⟨rfl, rfl, rfl, rfl, rfl, rfl, rfl, rfl, rfl, rfl, rfl, rfl, rfl, rfl, rfl, rfl⟩

/-- C11: the constructor `ImageContentSourcePolicy(name)` returns a builder whose
`Name` is `name`, whose `Kind` is "ImageContentSourcePolicy", whose `APIVersion`
is "operator.openshift.io/v1alpha1", and in which `Spec` and every other
object-meta field are unset. -/
theorem ImageContentSourcePolicy_fields (name : String) :
    (ImageContentSourcePolicy name :
        Outcome (ImageContentSourcePolicyApplyConfiguration Time OwnerRef SpecCfg)) =
      .returned
        { TypeMetaApplyConfiguration :=
            { Kind := some "ImageContentSourcePolicy",
              APIVersion := some "operator.openshift.io/v1alpha1" },
          ObjectMetaApplyConfiguration :=
            some { Name := some name, GenerateName := none, Namespace := none, UID := none,
                   ResourceVersion := none, Generation := none, CreationTimestamp := none,
                   DeletionTimestamp := none, DeletionGracePeriodSeconds := none,
                   Labels := none, Annotations := none, OwnerReferences := [],
                   Finalizers := [] },
          Spec := none } :=
  rfl

/-- A list on which `Option.isSome` holds throughout has no nil pointer. -/
theorem ne_none_of_all_isSome {α : Type} {vs : List (Option α)}
    (h : vs.all Option.isSome = true) : ∀ v ∈ vs, v ≠ none := by
  intro v hv hnone
  have := List.all_eq_true.mp h v hv
  rw [hnone] at this
  exact Bool.noConfusion this

/-- A nil-free setter call returns, and what it returns is the receiver with the
one field of the setter written. -/
theorem call_nilFree (s : KubeControllerManagerStatusSetter Cond Gen Node)
    (b : KubeControllerManagerStatusApplyConfiguration Cond Gen Node)
    (hs : s.nilFree = true) :
    s.call b = .returned
      (match s with
        | .WithObservedGeneration value =>
          b.setOperatorStatus (fun o => { o with ObservedGeneration := some value })
        | .WithConditions values =>
          b.setOperatorStatus (fun o => { o with Conditions := o.Conditions ++ values.reduceOption })
        | .WithVersion value =>
          b.setOperatorStatus (fun o => { o with Version := some value })
        | .WithReadyReplicas value =>
          b.setOperatorStatus (fun o => { o with ReadyReplicas := some value })
        | .WithLatestAvailableRevision value =>
          b.setOperatorStatus (fun o => { o with LatestAvailableRevision := some value })
        | .WithGenerations values =>
          b.setOperatorStatus
            (fun o => { o with Generations := o.Generations ++ values.reduceOption })
        | .WithLatestAvailableRevisionReason value =>
          { StaticPodOperatorStatusApplyConfiguration :=
            { b.StaticPodOperatorStatusApplyConfiguration with
              LatestAvailableRevisionReason := some value } }
        | .WithNodeStatuses values =>
          { StaticPodOperatorStatusApplyConfiguration :=
            { b.StaticPodOperatorStatusApplyConfiguration with
              NodeStatuses :=
                b.StaticPodOperatorStatusApplyConfiguration.NodeStatuses ++
                  values.reduceOption } }) := by
  cases s with
  | WithConditions values =>
    have h := WithConditions_map_some b values.reduceOption
    rw [map_some_reduceOption values (ne_none_of_all_isSome hs)] at h
    exact h
  | WithGenerations values =>
    have h := WithGenerations_map_some b values.reduceOption
    rw [map_some_reduceOption values (ne_none_of_all_isSome hs)] at h
    exact h
  | WithNodeStatuses values =>
    have h := WithNodeStatuses_map_some b values.reduceOption
    rw [map_some_reduceOption values (ne_none_of_all_isSome hs)] at h
    exact h
  | _ => rfl

/-- C12: setters of the `KubeControllerManagerStatus` builder that write different
fields commute: for two calls of distinct setters with nil-free arguments,
running them in either order returns (no panic) builders equal in every field. -/
theorem setters_commute
    (b : KubeControllerManagerStatusApplyConfiguration Cond Gen Node)
    (s t : KubeControllerManagerStatusSetter Cond Gen Node)
    (hdist : s.field ≠ t.field) (hs : s.nilFree = true) (ht : t.nilFree = true) :
    (s.call b).andThen t.call = (t.call b).andThen s.call ∧
    ((s.call b).andThen t.call).isPanic = false := by
  have e1 := call_nilFree s b hs
  have e2 := call_nilFree t b ht
  rw [e1, e2]
  simp only [Outcome.andThen]
  rw [call_nilFree t _ ht, call_nilFree s _ hs]
  refine ⟨?_, rfl⟩
  cases s <;> cases t <;> first
    | exact absurd rfl hdist
    | rfl

/-- C12, on the empty builder: `WithVersion("v")` and `WithConditions(7)` in
either order. -/
theorem setters_commute_witness :
    ((KubeControllerManagerStatus :
        KubeControllerManagerStatusApplyConfiguration Nat Nat Nat).WithVersion "v").andThen
        (fun b1 => b1.WithConditions [some 7]) =
      ((KubeControllerManagerStatus :
        KubeControllerManagerStatusApplyConfiguration Nat Nat Nat).WithConditions
          [some 7]).andThen (fun b1 => b1.WithVersion "v") :=
  (setters_commute
    (KubeControllerManagerStatus : KubeControllerManagerStatusApplyConfiguration Nat Nat Nat)
    (.WithVersion "v") (.WithConditions [some 7]) (by decide) rfl rfl).1

end BuilderClaims

end ApplyCfg
